import Mathlib

/-!
# Frontier maintenance workers

A shallow embedding of `workers.go` (package `main` of veidemann-frontier-workers):
six constructors, each taking the store handle and returning a nullary `worker`
closure that issues one store call, returns an error when the call fails and logs a
positive count when it succeeds.

The store (`database.Database`), the Go standard library (`fmt`, `context`,
`errors`) and the logger (`zerolog`) are outside `workers.go`; the parts of them
that the workers touch are modelled below and marked as such.
-/

namespace FrontierWorkers

/-! ## Go error values -/

/-- Go `error` values as the workers see them: a message and an optional wrapped
cause. `errorString` is what `errors.New` builds (no cause), `wrapError` is what
`fmt.Errorf` builds for a format holding `%w` (message plus the wrapped cause). Any
store error is one of the two shapes: it has a message and either unwraps to a cause
or does not. -/
inductive GoError where
  | errorString (s : String)
  | wrapError (msg : String) (err : GoError)
  deriving DecidableEq

/-- The `Error() string` method. -/
def GoError.Error : GoError → String
  | .errorString s => s
  | .wrapError msg _ => msg

/-- The `Unwrap() error` method (`errors.Unwrap`): the wrapped cause, if any. -/
def GoError.Unwrap : GoError → Option GoError
  | .errorString _ => none
  | .wrapError _ err => some err

/-! ## `fmt` formatting, restricted to the verbs of `workers.go` -/

/-- An operand of a `fmt` call: the workers pass integer counts (`%d`) and errors (`%w`). -/
inductive Arg where
  | int (n : Int)
  | err (e : GoError)
  deriving DecidableEq

/-- Expansion of a format over its operands, on character lists. `%d` consumes an integer
operand and prints it in decimal, `%w` consumes an error operand and prints its message;
every other character is copied. Only these two verbs occur in `workers.go`, each
with an operand of the matching kind. -/
def sprintfChars : List Char → List Arg → List Char
  | [], _ => []
  | '%' :: 'd' :: rest, .int n :: args => (toString n).toList ++ sprintfChars rest args
  | '%' :: 'w' :: rest, .err e :: args => e.Error.toList ++ sprintfChars rest args
  | c :: rest, args => c :: sprintfChars rest args

/-- Go `fmt.Sprintf`, for the formats of `workers.go`. -/
def Sprintf (format : String) (args : List Arg) : String :=
  String.mk (sprintfChars format.toList args)

/-- The operand that the first `%w` of a format is applied to, if there is one. -/
def wrappedOperand : List Char → List Arg → Option GoError
  | [], _ => none
  | '%' :: 'w' :: _, .err e :: _ => some e
  | '%' :: 'd' :: rest, .int _ :: args => wrappedOperand rest args
  | _ :: rest, args => wrappedOperand rest args

/-- Go `fmt.Errorf`: the message is the `Sprintf` expansion; when the format applies `%w`
to an error operand the result is a `wrapError` whose `Unwrap` gives that operand back,
otherwise it is a plain `errorString`. -/
def Errorf (format : String) (args : List Arg) : GoError :=
  match wrappedOperand format.toList args with
  | some e => .wrapError (Sprintf format args) e
  | none => .errorString (Sprintf format args)

/-! ## `context` -/

/-- Go `context.Context` values: `context.Background()` and the contexts derived from a
parent by `context.WithCancel` (identified by the cancel function handed to the caller) or
by `context.WithDeadline`. -/
inductive Context where
  | background
  | withCancel (parent : Context) (cancelFunc : Nat)
  | withDeadline (parent : Context) (deadline : Nat)
  deriving DecidableEq

/-- Whether a context is done (`ctx.Err() != nil`) once the cancel functions listed in
`fired` have been called and the clock reads `now`. The background context has no
cancel function and no deadline: it is never done. -/
def Context.done (fired : List Nat) (now : Nat) : Context → Bool
  | .background => false
  | .withCancel parent c => decide (c ∈ fired) || parent.done fired now
  | .withDeadline parent d => decide (d ≤ now) || parent.done fired now

/-! ## The store -/

/-- What every store method returns: an integer count and an error (`nil` is `none`). -/
abbrev Response := Int × Option GoError

/-- A call on the store as the store receives it: the method and, for the three
context-taking methods, the context argument. -/
inductive StoreCall where
  | MoveWaitToReady
  | MoveBusyToTimeout
  | MoveRunningToTimeout
  | UpdateJobExecutions (ctx : Context)
  | RemoveFromUriQueue (ctx : Context)
  | TimeoutCrawlExecutions (ctx : Context)
  deriving DecidableEq

/-- Modelled from the spec: the `database.Database` interface (package `database` is
imported by `workers.go` but its declaration is not part of the sources). One method
per sweep, each returning an integer count and an error; a method may change the
store, whose state has type `σ`. -/
structure Database (σ : Type) where
  MoveWaitToReady : σ → Response × σ
  MoveBusyToTimeout : σ → Response × σ
  MoveRunningToTimeout : σ → Response × σ
  UpdateJobExecutions : Context → σ → Response × σ
  RemoveFromUriQueue : Context → σ → Response × σ
  TimeoutCrawlExecutions : Context → σ → Response × σ

/-- Dispatch of a call to the store method it names. -/
def Database.respond {σ : Type} (db : Database σ) : StoreCall → σ → Response × σ
  | .MoveWaitToReady => db.MoveWaitToReady
  | .MoveBusyToTimeout => db.MoveBusyToTimeout
  | .MoveRunningToTimeout => db.MoveRunningToTimeout
  | .UpdateJobExecutions ctx => db.UpdateJobExecutions ctx
  | .RemoveFromUriQueue ctx => db.RemoveFromUriQueue ctx
  | .TimeoutCrawlExecutions ctx => db.TimeoutCrawlExecutions ctx

/-! ## The world a worker runs in -/

/-- Levels of the `zerolog` logger. -/
inductive Level where
  | trace
  | debug
  | info
  | warn
  | error
  deriving DecidableEq

/-- One event handed to the global logger: its level and its formatted message. -/
structure LogEvent where
  level : Level
  message : String
  deriving DecidableEq

/-- Everything a worker can observe or change: the store state, the sequence of calls the
store has received, and the sequence of events handed to the global logger. -/
structure World (σ : Type) where
  store : σ
  calls : List StoreCall
  log : List LogEvent

/-- Invoking a store method from Go code: the store receives the call (recorded in
`calls`), answers, and is left in its new state. -/
def Database.call {σ : Type} (db : Database σ) (c : StoreCall) (w : World σ) :
    Response × World σ :=
  ((db.respond c w.store).1, { w with store := (db.respond c w.store).2, calls := w.calls ++ [c] })

/-- The logger call `log.Debug().Msgf(format, args...)`: one debug-level event whose
message is the expansion of the format. -/
def logDebugMsgf {σ : Type} (format : String) (args : List Arg) (w : World σ) : World σ :=
  { w with log := w.log ++ [⟨Level.debug, Sprintf format args⟩] }

/-- Source: `type worker func() error`. A nullary function that may return an error; its
effects are on the world. -/
abbrev worker (σ : Type) := World σ → Option GoError × World σ

/-! ## The six workers -/

/-- Source `waitQueueWorker`: moves crawl host groups from wait to ready queue. -/
def waitQueueWorker {σ : Type} (db : Database σ) : worker σ := fun w =>
  match db.call .MoveWaitToReady w with
  | ((_, some err), w) =>
    (some (Errorf "error moving crawl host groups from wait queue to ready queue: %w" [.err err]), w)
  | ((moved, none), w) =>
    if moved > 0 then
      (none, logDebugMsgf "%d crawl host group(s) is ready" [.int moved] w)
    else
      (none, w)

/-- Source `busyQueueWorker`: moves crawl host groups from busy to timeout queue. -/
def busyQueueWorker {σ : Type} (db : Database σ) : worker σ := fun w =>
  match db.call .MoveBusyToTimeout w with
  | ((_, some err), w) =>
    (some (Errorf "error moving crawl host groups from busy queue to timeout queue: %w" [.err err]), w)
  | ((moved, none), w) =>
    if moved > 0 then
      (none, logDebugMsgf "%d crawl host group(s) timed out" [.int moved] w)
    else
      (none, w)

/-- Source `executionTimeoutQueueWorker`: moves crawl executions from running to timeout
queue. -/
def executionTimeoutQueueWorker {σ : Type} (db : Database σ) : worker σ := fun w =>
  match db.call .MoveRunningToTimeout w with
  | ((_, some err), w) =>
    (some (Errorf "error moving crawl executions from running to timeout queue: %w" [.err err]), w)
  | ((moved, none), w) =>
    if moved > 0 then
      (none, logDebugMsgf "%d crawl execution(s) timed out" [.int moved] w)
    else
      (none, w)

/-- Source `updateJobExecutions`: updates job executions; the store call receives
`context.Background()`. -/
def updateJobExecutions {σ : Type} (db : Database σ) : worker σ := fun w =>
  match db.call (.UpdateJobExecutions Context.background) w with
  | ((_, some err), w) =>
    (some (Errorf "failed to update job executions: %w" [.err err]), w)
  | ((count, none), w) =>
    if count > 0 then
      (none, logDebugMsgf "Updated %d job execution(s)" [.int count] w)
    else
      (none, w)

/-- Source `removeUriQueueWorker`: deletes queued uris; the store call receives
`context.Background()` and a store error is returned as it is (`return err`). -/
def removeUriQueueWorker {σ : Type} (db : Database σ) : worker σ := fun w =>
  match db.call (.RemoveFromUriQueue Context.background) w with
  | ((_, some err), w) =>
    (some err, w)
  | ((removed, none), w) =>
    if removed > 0 then
      (none, logDebugMsgf "Removed %d queued uris" [.int removed] w)
    else
      (none, w)

/-- Source `crawlExecutionTimeoutWorker`: sets the desired state of the crawl executions
in the timeout queue; the store call receives `context.Background()`. -/
def crawlExecutionTimeoutWorker {σ : Type} (db : Database σ) : worker σ := fun w =>
  match db.call (.TimeoutCrawlExecutions Context.background) w with
  | ((_, some err), w) =>
    (some (Errorf "time out crawl executions: %w" [.err err]), w)
  | ((timeouts, none), w) =>
    if timeouts > 0 then
      (none, logDebugMsgf "%d crawl execution(s) timed out" [.int timeouts] w)
    else
      (none, w)

/-! ## The six sweeps as one family -/

/-- The six workers of `workers.go`, named after their constructors. -/
inductive Sweep where
  | waitQueue
  | busyQueue
  | executionTimeoutQueue
  | jobExecutions
  | removeUriQueue
  | crawlExecutionTimeout
  deriving DecidableEq

/-- The worker that each constructor of `workers.go` returns. -/
def Sweep.worker {σ : Type} (db : Database σ) : Sweep → worker σ
  | .waitQueue => waitQueueWorker db
  | .busyQueue => busyQueueWorker db
  | .executionTimeoutQueue => executionTimeoutQueueWorker db
  | .jobExecutions => updateJobExecutions db
  | .removeUriQueue => removeUriQueueWorker db
  | .crawlExecutionTimeout => crawlExecutionTimeoutWorker db

/-- The store call that belongs to each sweep: its own store method, applied to the
background context where the method takes a context. -/
def Sweep.ownCall : Sweep → StoreCall
  | .waitQueue => .MoveWaitToReady
  | .busyQueue => .MoveBusyToTimeout
  | .executionTimeoutQueue => .MoveRunningToTimeout
  | .jobExecutions => .UpdateJobExecutions Context.background
  | .removeUriQueue => .RemoveFromUriQueue Context.background
  | .crawlExecutionTimeout => .TimeoutCrawlExecutions Context.background

/-- The two sweeps that both report timed out crawl executions. -/
def Sweep.reportsExecutionTimeout : Sweep → Bool
  | .executionTimeoutQueue => true
  | .crawlExecutionTimeout => true
  | _ => false

/-! ## Store doubles -/

/-- A store double without state: every method gives the answer `answer` assigns to it. -/
def scriptedStore (answer : StoreCall → Response) : Database Unit where
  MoveWaitToReady := fun s => (answer .MoveWaitToReady, s)
  MoveBusyToTimeout := fun s => (answer .MoveBusyToTimeout, s)
  MoveRunningToTimeout := fun s => (answer .MoveRunningToTimeout, s)
  UpdateJobExecutions := fun ctx s => (answer (.UpdateJobExecutions ctx), s)
  RemoveFromUriQueue := fun ctx s => (answer (.RemoveFromUriQueue ctx), s)
  TimeoutCrawlExecutions := fun ctx s => (answer (.TimeoutCrawlExecutions ctx), s)

/-- A store double whose every method gives the same answer. -/
def constStore (r : Response) : Database Unit :=
  scriptedStore (fun _ => r)

/-- A store double in which `MoveBusyToTimeout` fails with `e` and every other method
succeeds with the count `n`. -/
def busyFailingStore (e : GoError) (n : Int) : Database Unit :=
  scriptedStore (fun c => if c = StoreCall.MoveBusyToTimeout then (0, some e) else (n, none))

/-- A world in which nothing has happened yet. -/
def freshWorld : World Unit :=
  { store := (), calls := [], log := [] }

/-! ## The URI queue of the store -/

/-- Modelled from the spec: an entry of the URI queue held by the store (the store's
implementation, package `database`, is not part of the sources). An entry is removable
when it is already consumed or orphaned. -/
structure UriQueueEntry where
  uri : String
  removable : Bool
  deriving DecidableEq

/-- The fixed batch cap, from the comment on `removeUriQueueWorker`: "deletes up to 10000
queued uris per batch". -/
def batchCap : Nat := 10000

/-- Modelled from the spec: one bounded trimming batch over the URI queue (the body of the
store's `RemoveFromUriQueue` is not part of the sources). It deletes removable entries, at
most `cap` of them, keeps every other entry in order, and returns the number deleted with
the remaining queue. -/
def trimBatch : List UriQueueEntry → Nat → Nat × List UriQueueEntry
  | [], _ => (0, [])
  | e :: q, cap =>
    if e.removable then
      match cap with
      | 0 => (0, e :: q)
      | cap + 1 => ((trimBatch q cap).1 + 1, (trimBatch q cap).2)
    else
      ((trimBatch q cap).1, e :: (trimBatch q cap).2)

/-- Modelled from the spec: a store whose state is its URI queue and whose
`RemoveFromUriQueue` is one trimming batch bounded by `batchCap`, returning the count
removed. The other five methods do not touch the URI queue; what they do elsewhere in the
store is left out. -/
def uriQueueStore : Database (List UriQueueEntry) where
  MoveWaitToReady := fun q => ((0, none), q)
  MoveBusyToTimeout := fun q => ((0, none), q)
  MoveRunningToTimeout := fun q => ((0, none), q)
  UpdateJobExecutions := fun _ q => ((0, none), q)
  RemoveFromUriQueue := fun _ q => ((((trimBatch q batchCap).1 : Nat), none), (trimBatch q batchCap).2)
  TimeoutCrawlExecutions := fun _ q => ((0, none), q)

/-! ## What each worker returns and logs, read off its source text -/

/-- The context each wrapping worker puts in front of the store error (the literal
text of its `fmt.Errorf` format up to `%w`); `removeUriQueueWorker` has none. -/
def Sweep.errorContext : Sweep → Option String
  | .waitQueue => some "error moving crawl host groups from wait queue to ready queue: "
  | .busyQueue => some "error moving crawl host groups from busy queue to timeout queue: "
  | .executionTimeoutQueue => some "error moving crawl executions from running to timeout queue: "
  | .jobExecutions => some "failed to update job executions: "
  | .removeUriQueue => none
  | .crawlExecutionTimeout => some "time out crawl executions: "

/-- The error a worker hands back for the store error `e`. -/
def Sweep.returned (k : Sweep) (e : GoError) : GoError :=
  match k.errorContext with
  | some ctx => .wrapError (ctx ++ e.Error) e
  | none => e

/-- The line a worker logs for the count `n` (its `Msgf` format with `%d` expanded). -/
def Sweep.logLine : Sweep → Int → String
  | .waitQueue, n => toString n ++ " crawl host group(s) is ready"
  | .busyQueue, n => toString n ++ " crawl host group(s) timed out"
  | .executionTimeoutQueue, n => toString n ++ " crawl execution(s) timed out"
  | .jobExecutions, n => "Updated " ++ toString n ++ " job execution(s)"
  | .removeUriQueue, n => "Removed " ++ toString n ++ " queued uris"
  | .crawlExecutionTimeout, n => toString n ++ " crawl execution(s) timed out"

/-- The world right after the sweep's store call: the call is recorded and the store is
in the state the call left. -/
def Sweep.afterCall {σ : Type} (k : Sweep) (db : Database σ) (w : World σ) : World σ :=
  { w with store := (db.respond k.ownCall w.store).2, calls := w.calls ++ [k.ownCall] }

/-! ## Lemmas on formatting -/

theorem sprintfChars_copy (c : Char) (rest : List Char) (args : List Arg) (hc : c ≠ '%') :
    sprintfChars (c :: rest) args = c :: sprintfChars rest args := by
  conv_lhs => unfold sprintfChars
  split <;> simp_all

theorem wrappedOperand_skip (c : Char) (rest : List Char) (args : List Arg) (hc : c ≠ '%') :
    wrappedOperand (c :: rest) args = wrappedOperand rest args := by
  conv_lhs => unfold wrappedOperand
  split <;> simp_all

theorem sprintfChars_context (e : GoError) (ctx : List Char) (h : '%' ∉ ctx) :
    sprintfChars (ctx ++ ['%', 'w']) [.err e] = ctx ++ e.Error.toList := by
  induction ctx with
  | nil => simp [sprintfChars]
  | cons c rest ih =>
    have hc : c ≠ '%' := fun hc => h (by simp [hc])
    have hr : '%' ∉ rest := fun hr => h (by simp [hr])
    simp [sprintfChars_copy c _ _ hc, ih hr]

theorem wrappedOperand_context (e : GoError) (ctx : List Char) (h : '%' ∉ ctx) :
    wrappedOperand (ctx ++ ['%', 'w']) [.err e] = some e := by
  induction ctx with
  | nil => simp [wrappedOperand]
  | cons c rest ih =>
    have hc : c ≠ '%' := fun hc => h (by simp [hc])
    have hr : '%' ∉ rest := fun hr => h (by simp [hr])
    simp [wrappedOperand_skip c _ _ hc, ih hr]

/-- For a context free of `%`, `fmt.Errorf(ctx + "%w", e)` is the wrap error whose message is
the context followed by the message of `e` and whose cause is `e`. -/
theorem Errorf_context (ctx : String) (e : GoError) (h : '%' ∉ ctx.toList) :
    Errorf (ctx ++ "%w") [.err e] = .wrapError (ctx ++ e.Error) e := by
  have hf : (ctx ++ "%w").toList = ctx.toList ++ ['%', 'w'] := rfl
  unfold Errorf Sprintf
  rw [hf, wrappedOperand_context e _ h, sprintfChars_context e _ h]
  rfl

/-- The same, for a format given as one literal. -/
theorem Errorf_literal (format ctx : String) (e : GoError) (hf : format = ctx ++ "%w")
    (h : '%' ∉ ctx.toList) : Errorf format [.err e] = .wrapError (ctx ++ e.Error) e := by
  subst hf
  exact Errorf_context ctx e h

/-- A wrap error is never its own cause. -/
theorem wrapError_ne_cause (msg : String) (e : GoError) : GoError.wrapError msg e ≠ e := by
  intro h
  have hs := congrArg sizeOf h
  simp at hs

/-! ## One run of a worker -/

/-- A worker whose store call fails returns the sweep's error for the store error and
leaves the world as the store call left it. -/
theorem Sweep.worker_of_error {σ : Type} (k : Sweep) (db : Database σ) (w : World σ)
    (n : Int) (e : GoError) (h : (db.respond k.ownCall w.store).1 = (n, some e)) :
    k.worker db w = (some (k.returned e), k.afterCall db w) := by
  cases k <;>
    simp only [Sweep.worker, Sweep.ownCall, Sweep.afterCall, Sweep.returned, Sweep.errorContext,
      waitQueueWorker, busyQueueWorker, executionTimeoutQueueWorker, updateJobExecutions,
      removeUriQueueWorker, crawlExecutionTimeoutWorker, Database.call] at h ⊢ <;>
    rw [h] <;> simp only [] <;>
    first
      | rfl
      | exact congrArg₂ Prod.mk (congrArg some (Errorf_literal _ _ e (by decide) (by decide))) rfl

/-- A worker whose store call succeeds with the count `n` returns nil, and logs its line
when `n` is positive. -/
theorem Sweep.worker_of_success {σ : Type} (k : Sweep) (db : Database σ) (w : World σ)
    (n : Int) (h : (db.respond k.ownCall w.store).1 = (n, none)) :
    k.worker db w =
      (none, if n > 0 then { k.afterCall db w with log := w.log ++ [⟨Level.debug, k.logLine n⟩] }
             else k.afterCall db w) := by
  cases k <;>
    simp only [Sweep.worker, Sweep.ownCall, Sweep.afterCall, Sweep.logLine,
      waitQueueWorker, busyQueueWorker, executionTimeoutQueueWorker, updateJobExecutions,
      removeUriQueueWorker, crawlExecutionTimeoutWorker, Database.call] at h ⊢ <;>
    rw [h] <;> simp only [] <;>
    split <;> rfl

/-- Whatever the store answers, a worker leaves the store as its one call left it and has
appended exactly that call to the calls the store received. -/
theorem Sweep.worker_calls_store {σ : Type} (k : Sweep) (db : Database σ) (w : World σ) :
    (k.worker db w).2.calls = w.calls ++ [k.ownCall] ∧
    (k.worker db w).2.store = (db.respond k.ownCall w.store).2 := by
  rcases hr : (db.respond k.ownCall w.store).1 with ⟨n, _ | e⟩
  · rw [Sweep.worker_of_success k db w n hr]
    by_cases hn : n > 0 <;> simp [hn, Sweep.afterCall]
  · rw [Sweep.worker_of_error k db w n e hr]
    simp [Sweep.afterCall]

/-! ## Lemmas on the logged lines -/

/-- The last character of a string that ends in a non-empty string. -/
theorem getLast_data_append (s t : String) (c : Char) (h : t.data.getLast? = some c) :
    (s ++ t).data.getLast? = some c := by
  simp [List.getLast?_append, h]

/-- The last character of each worker's line. -/
theorem Sweep.logLine_last (k : Sweep) (n : Int) :
    (k.logLine n).data.getLast? =
      some (match k with
        | .waitQueue => 'y'
        | .jobExecutions => ')'
        | .removeUriQueue => 's'
        | _ => 't') := by
  cases k <;> simp only [Sweep.logLine] <;> exact getLast_data_append _ _ _ rfl

/-- Two sweeps other than the two reporting execution timeouts never log the same line. -/
theorem Sweep.logLine_ne (n : Int) (k₁ k₂ : Sweep) (hne : k₁ ≠ k₂)
    (hpair : ¬ (k₁.reportsExecutionTimeout = true ∧ k₂.reportsExecutionTimeout = true)) :
    k₁.logLine n ≠ k₂.logLine n := by
  intro heq
  have hlast := congrArg (fun s => s.data.getLast?) heq
  simp only [Sweep.logLine_last] at hlast
  cases k₁ <;> cases k₂ <;>
    first
      | exact absurd rfl hne
      | exact absurd hlast (by decide)
      | exact hpair ⟨rfl, rfl⟩
      | (simp [Sweep.logLine, String.ext_iff] at heq)

/-! ## Lemmas on the trimming batch -/

/-- A batch with cap 2 over three removable entries and one kept entry deletes the first two
removable entries and keeps the rest in order. -/
theorem trimBatch_cap_binds :
    trimBatch [⟨"a", true⟩, ⟨"b", true⟩, ⟨"c", false⟩, ⟨"d", true⟩] 2
      = (2, [⟨"c", false⟩, ⟨"d", true⟩]) := by
  decide

theorem trimBatch_count_le (q : List UriQueueEntry) (cap : Nat) : (trimBatch q cap).1 ≤ cap := by
  induction q generalizing cap with
  | nil => simp [trimBatch]
  | cons e q ih =>
    unfold trimBatch
    by_cases he : e.removable = true
    · cases cap with
      | zero => simp [he]
      | succ cap => simpa [he] using ih cap
    · simpa [he] using ih cap

theorem trimBatch_length (q : List UriQueueEntry) (cap : Nat) :
    (trimBatch q cap).1 + (trimBatch q cap).2.length = q.length := by
  induction q generalizing cap with
  | nil => simp [trimBatch]
  | cons e q ih =>
    unfold trimBatch
    by_cases he : e.removable = true
    · cases cap with
      | zero => simp [he]
      | succ cap =>
        have := ih cap
        simp [he]
        omega
    · have := ih cap
      simp [he]
      omega

/-! ## Error wrapping -/

/-- Every worker other than `removeUriQueueWorker` returns, for the store error `e`, a wrap
error whose message is a non-empty context followed by the message of `e`, whose cause is
`e`, and which is not `e` itself. -/
theorem wrapping_workers_wrap {σ : Type} (k : Sweep) (hk : k ≠ Sweep.removeUriQueue)
    (db : Database σ) (w : World σ) (n : Int) (e : GoError)
    (h : (db.respond k.ownCall w.store).1 = (n, some e)) :
    ∃ (ctx : String) (r : GoError), k.errorContext = some ctx ∧ ctx ≠ "" ∧
      (k.worker db w).1 = some r ∧ r.Error = ctx ++ e.Error ∧ r.Unwrap = some e ∧ r ≠ e := by
  rw [Sweep.worker_of_error k db w n e h]
  cases k <;>
    first
      | exact absurd rfl hk
      | exact ⟨_, _, rfl, by decide, rfl, rfl, rfl, wrapError_ne_cause _ e⟩

/-- C1 (fails on the code, at `removeUriQueueWorker`): when `RemoveFromUriQueue` fails with
the error "boom", `removeUriQueueWorker` returns that very error, with the bare message
"boom" and nothing to unwrap; no context is put in front of it. -/
theorem removeUriQueueWorker_returns_bare_store_error :
    ((constStore (0, some (GoError.errorString "boom"))).respond
        (StoreCall.RemoveFromUriQueue Context.background) freshWorld.store).1
      = (0, some (GoError.errorString "boom")) ∧
    (removeUriQueueWorker (constStore (0, some (GoError.errorString "boom"))) freshWorld).1
      = some (GoError.errorString "boom") ∧
    ((removeUriQueueWorker (constStore (0, some (GoError.errorString "boom"))) freshWorld).1.map
        GoError.Error) = some "boom" ∧
    ((removeUriQueueWorker (constStore (0, some (GoError.errorString "boom"))) freshWorld).1.bind
        GoError.Unwrap) = none := by
  decide

/-- C2: a worker returns a non-nil error exactly when its store call returned a non-nil
error; when the store call succeeds the worker returns nil for every count, zero included. -/
theorem worker_fails_iff_store_call_fails {σ : Type} (k : Sweep) (db : Database σ)
    (w : World σ) :
    ((k.worker db w).1 ≠ none ↔ (db.respond k.ownCall w.store).1.2 ≠ none) ∧
    (∀ n : Int, (db.respond k.ownCall w.store).1 = (n, none) → (k.worker db w).1 = none) := by
  constructor
  · rcases hr : (db.respond k.ownCall w.store).1 with ⟨n, _ | e⟩
    · simp [Sweep.worker_of_success k db w n hr]
    · simp [Sweep.worker_of_error k db w n e hr]
  · intro n hr
    rw [Sweep.worker_of_success k db w n hr]

/-- C3: when `MoveWaitToReady` fails with `e`, `waitQueueWorker` returns an error whose message
is "error moving crawl host groups from wait queue to ready queue: " followed by the message
of `e`, and which unwraps to `e`. -/
theorem waitQueueWorker_wraps_store_error {σ : Type} (db : Database σ) (w : World σ)
    (n : Int) (e : GoError)
    (h : (db.respond StoreCall.MoveWaitToReady w.store).1 = (n, some e)) :
    ∃ r : GoError, (waitQueueWorker db w).1 = some r ∧
      r.Error = "error moving crawl host groups from wait queue to ready queue: " ++ e.Error ∧
      r.Unwrap = some e := by
  have hrun := Sweep.worker_of_error Sweep.waitQueue db w n e h
  simp only [Sweep.worker] at hrun
  rw [hrun]
  exact ⟨_, rfl, rfl, rfl⟩

/-- An instance: `MoveWaitToReady` failing with "connection refused". -/
theorem waitQueueWorker_wraps_store_error_witness :
    ((constStore (4, some (GoError.errorString "connection refused"))).respond
        StoreCall.MoveWaitToReady freshWorld.store).1
      = (4, some (GoError.errorString "connection refused")) ∧
    ∃ r : GoError,
      (waitQueueWorker (constStore (4, some (GoError.errorString "connection refused")))
        freshWorld).1 = some r ∧
      r.Error = "error moving crawl host groups from wait queue to ready queue: "
        ++ (GoError.errorString "connection refused").Error ∧
      r.Unwrap = some (GoError.errorString "connection refused") :=
  ⟨rfl, waitQueueWorker_wraps_store_error _ freshWorld 4 _ rfl⟩

/-! ## Logging -/

/-- On counts that are not negative the guard `> 0` and the test "non-zero" agree: a
successful store call with such a count `n` gives one debug line holding `n` when `n` is
non-zero and no line when `n` is zero. -/
theorem worker_logs_nonzero_natural_count {σ : Type} (k : Sweep) (db : Database σ)
    (w : World σ) (n : Int) (hnat : 0 ≤ n)
    (h : (db.respond k.ownCall w.store).1 = (n, none)) :
    (n ≠ 0 → (k.worker db w).2.log = w.log ++ [⟨Level.debug, k.logLine n⟩]) ∧
    (n = 0 → (k.worker db w).2.log = w.log) := by
  rw [Sweep.worker_of_success k db w n h]
  constructor
  · intro hn
    have hn' : n > 0 := lt_of_le_of_ne hnat (Ne.symm hn)
    simp only [hn', if_true]
  · intro hn
    subst hn
    rfl

/-- C4: when the store call succeeds with the count `n`, the number of entities moved, a
worker hands the logger exactly one more event if `n` is non-zero, at debug level and with
`n` in decimal inside its message, and no event if `n` is zero. -/
theorem worker_logs_nonzero_count_only {σ : Type} (k : Sweep) (db : Database σ)
    (w : World σ) (n : Nat) (h : (db.respond k.ownCall w.store).1 = ((n : Int), none)) :
    (n ≠ 0 → ∃ before after : String,
      (k.worker db w).2.log = w.log ++ [⟨Level.debug, before ++ toString n ++ after⟩]) ∧
    (n = 0 → (k.worker db w).2.log = w.log) := by
  rw [Sweep.worker_of_success k db w (n : Int) h]
  constructor
  · intro hn
    have hn' : (n : Int) > 0 := by exact_mod_cast Nat.pos_of_ne_zero hn
    simp only [hn', if_true]
    cases k
    case jobExecutions => exact ⟨"Updated ", " job execution(s)", rfl⟩
    case removeUriQueue => exact ⟨"Removed ", " queued uris", rfl⟩
    all_goals exact ⟨"", _, rfl⟩
  · intro hn
    subst hn
    rfl

/-- An instance: `busyQueueWorker` on a store answering the count 3. -/
theorem worker_logs_nonzero_count_only_witness :
    ((constStore (3, none)).respond Sweep.busyQueue.ownCall freshWorld.store).1
      = (((3 : Nat) : Int), none) ∧
    (((3 : Nat) ≠ 0 → ∃ before after : String,
      (Sweep.busyQueue.worker (constStore (3, none)) freshWorld).2.log
        = freshWorld.log ++ [⟨Level.debug, before ++ toString (3 : Nat) ++ after⟩]) ∧
    ((3 : Nat) = 0 →
      (Sweep.busyQueue.worker (constStore (3, none)) freshWorld).2.log = freshWorld.log)) ∧
    (Sweep.busyQueue.worker (constStore (3, none)) freshWorld).2.log
      = [⟨Level.debug, "3 crawl host group(s) timed out"⟩] :=
  ⟨rfl, worker_logs_nonzero_count_only Sweep.busyQueue (constStore (3, none)) freshWorld 3 rfl,
    by decide⟩

/-- C5 (as stated, fails): for the count 1 the two distinct workers
`executionTimeoutQueueWorker` and `crawlExecutionTimeoutWorker` log the same line,
"1 crawl execution(s) timed out". -/
theorem execution_timeout_workers_log_same_line :
    Sweep.executionTimeoutQueue ≠ Sweep.crawlExecutionTimeout ∧
    (executionTimeoutQueueWorker (constStore (1, none)) freshWorld).2.log
      = [⟨Level.debug, "1 crawl execution(s) timed out"⟩] ∧
    (crawlExecutionTimeoutWorker (constStore (1, none)) freshWorld).2.log
      = [⟨Level.debug, "1 crawl execution(s) timed out"⟩] := by
  decide

/-- C5 (amended): for a positive count `n`, two distinct workers that are not both among
`executionTimeoutQueueWorker` and `crawlExecutionTimeoutWorker` each log one line for `n`,
and the two lines differ. -/
theorem distinct_sweeps_log_distinct_lines {σ τ : Type} (n : Int) (hn : 0 < n)
    (k₁ k₂ : Sweep) (hne : k₁ ≠ k₂)
    (hpair : ¬ (k₁.reportsExecutionTimeout = true ∧ k₂.reportsExecutionTimeout = true))
    (db₁ : Database σ) (w₁ : World σ) (db₂ : Database τ) (w₂ : World τ)
    (h₁ : (db₁.respond k₁.ownCall w₁.store).1 = (n, none))
    (h₂ : (db₂.respond k₂.ownCall w₂.store).1 = (n, none)) :
    ∃ l₁ l₂ : String,
      (k₁.worker db₁ w₁).2.log = w₁.log ++ [⟨Level.debug, l₁⟩] ∧
      (k₂.worker db₂ w₂).2.log = w₂.log ++ [⟨Level.debug, l₂⟩] ∧
      l₁ ≠ l₂ := by
  have hn' : n > 0 := hn
  refine ⟨k₁.logLine n, k₂.logLine n, ?_, ?_, Sweep.logLine_ne n k₁ k₂ hne hpair⟩
  · rw [Sweep.worker_of_success k₁ db₁ w₁ n h₁]
    simp only [hn', if_true]
  · rw [Sweep.worker_of_success k₂ db₂ w₂ n h₂]
    simp only [hn', if_true]

/-- An instance: `busyQueueWorker` and `executionTimeoutQueueWorker` on the count 2. -/
theorem distinct_sweeps_log_distinct_lines_witness :
    (0 : Int) < 2 ∧ Sweep.busyQueue ≠ Sweep.executionTimeoutQueue ∧
    ¬ (Sweep.busyQueue.reportsExecutionTimeout = true ∧
        Sweep.executionTimeoutQueue.reportsExecutionTimeout = true) ∧
    ∃ l₁ l₂ : String,
      (Sweep.busyQueue.worker (constStore (2, none)) freshWorld).2.log
        = freshWorld.log ++ [⟨Level.debug, l₁⟩] ∧
      (Sweep.executionTimeoutQueue.worker (constStore (2, none)) freshWorld).2.log
        = freshWorld.log ++ [⟨Level.debug, l₂⟩] ∧
      l₁ ≠ l₂ :=
  ⟨by decide, by decide, by decide,
    distinct_sweeps_log_distinct_lines 2 (by decide) Sweep.busyQueue Sweep.executionTimeoutQueue
      (by decide) (by decide) (constStore (2, none)) freshWorld (constStore (2, none)) freshWorld
      rfl rfl⟩

/-- C10: when the store call returns a non-nil error, the worker hands nothing to the logger,
whatever count comes with the error. -/
theorem failed_store_call_logs_nothing {σ : Type} (k : Sweep) (db : Database σ)
    (w : World σ) (n : Int) (e : GoError)
    (h : (db.respond k.ownCall w.store).1 = (n, some e)) :
    (k.worker db w).2.log = w.log := by
  rw [Sweep.worker_of_error k db w n e h]
  rfl

/-- An instance: `updateJobExecutions` on a store answering the count 7 with an error. -/
theorem failed_store_call_logs_nothing_witness :
    ((constStore (7, some (GoError.errorString "i/o timeout"))).respond
        Sweep.jobExecutions.ownCall freshWorld.store).1
      = (7, some (GoError.errorString "i/o timeout")) ∧
    (Sweep.jobExecutions.worker (constStore (7, some (GoError.errorString "i/o timeout")))
        freshWorld).2.log = freshWorld.log :=
  ⟨rfl, failed_store_call_logs_nothing Sweep.jobExecutions _ freshWorld 7 _ rfl⟩

/-! ## Store calls -/

/-- C6: one invocation of a worker adds exactly one call to those the store has received,
the call to the worker's own store method, and leaves the store in the state that call
left it; this holds for every answer of the store, success or failure. -/
theorem worker_issues_exactly_its_own_store_call {σ : Type} (k : Sweep) (db : Database σ)
    (w : World σ) :
    (k.worker db w).2.calls = w.calls ++ [k.ownCall] ∧
    (k.worker db w).2.store = (db.respond k.ownCall w.store).2 ∧
    k.ownCall =
      (match k with
        | .waitQueue => StoreCall.MoveWaitToReady
        | .busyQueue => StoreCall.MoveBusyToTimeout
        | .executionTimeoutQueue => StoreCall.MoveRunningToTimeout
        | .jobExecutions => StoreCall.UpdateJobExecutions Context.background
        | .removeUriQueue => StoreCall.RemoveFromUriQueue Context.background
        | .crawlExecutionTimeout => StoreCall.TimeoutCrawlExecutions Context.background) :=
  ⟨(Sweep.worker_calls_store k db w).1, (Sweep.worker_calls_store k db w).2, by cases k <;> rfl⟩

/-- C7 (as stated, fails): whatever cancel functions are called and whatever the time, the
context that the store received from `updateJobExecutions` and from `removeUriQueueWorker`
is not done. -/
theorem store_call_context_is_never_cancelled :
    ¬ ∃ (fired : List Nat) (now : Nat) (ctx : Context),
      ((updateJobExecutions (constStore (0, none)) freshWorld).2.calls
          = [StoreCall.UpdateJobExecutions ctx] ∨
        (removeUriQueueWorker (constStore (0, none)) freshWorld).2.calls
          = [StoreCall.RemoveFromUriQueue ctx]) ∧
      ctx.done fired now = true := by
  rintro ⟨fired, now, ctx, hcall, hdone⟩
  have hctx : ctx = Context.background := by
    rcases hcall with h | h
    · have h' : [StoreCall.UpdateJobExecutions Context.background]
          = [StoreCall.UpdateJobExecutions ctx] := h
      simpa using h'.symm
    · have h' : [StoreCall.RemoveFromUriQueue Context.background]
          = [StoreCall.RemoveFromUriQueue ctx] := h
      simpa using h'.symm
  subst hctx
  simp [Context.done] at hdone

/-- C7 (amended): `updateJobExecutions` and `removeUriQueueWorker` take no cancellation signal;
the context each passes to its store call is the background context, which is not done
whatever cancel functions are called and whatever the time. -/
theorem context_workers_pass_background {σ : Type} (db : Database σ) (w : World σ) :
    (updateJobExecutions db w).2.calls
      = w.calls ++ [StoreCall.UpdateJobExecutions Context.background] ∧
    (removeUriQueueWorker db w).2.calls
      = w.calls ++ [StoreCall.RemoveFromUriQueue Context.background] ∧
    ∀ (fired : List Nat) (now : Nat), Context.background.done fired now = false :=
  ⟨(Sweep.worker_calls_store Sweep.jobExecutions db w).1,
    (Sweep.worker_calls_store Sweep.removeUriQueue db w).1, fun _ _ => rfl⟩

/-! ## Failure isolation -/

/-- C8: in a store where `MoveBusyToTimeout` fails with `e` and `MoveWaitToReady`, called next,
succeeds, `busyQueueWorker` returns `e` wrapped with its context and `waitQueueWorker` invoked
right afterwards on the same store returns nil; and for every worker the returned error is
fixed by the answer of its own store method alone, whatever the store, the calls received
before and the lines logged before. -/
theorem sweep_failures_are_isolated {σ : Type} (db : Database σ) (w : World σ)
    (n m : Int) (e : GoError)
    (hbusy : (db.respond StoreCall.MoveBusyToTimeout w.store).1 = (n, some e))
    (hwait : (db.respond StoreCall.MoveWaitToReady (busyQueueWorker db w).2.store).1
      = (m, none)) :
    (busyQueueWorker db w).1 = some (GoError.wrapError
      ("error moving crawl host groups from busy queue to timeout queue: " ++ e.Error) e) ∧
    (waitQueueWorker db (busyQueueWorker db w).2).1 = none ∧
    (∀ (k : Sweep) (τ₁ τ₂ : Type) (db₁ : Database τ₁) (w₁ : World τ₁)
        (db₂ : Database τ₂) (w₂ : World τ₂),
      (db₁.respond k.ownCall w₁.store).1 = (db₂.respond k.ownCall w₂.store).1 →
      (k.worker db₁ w₁).1 = (k.worker db₂ w₂).1) := by
  refine ⟨?_, ?_, ?_⟩
  · have hrun := Sweep.worker_of_error Sweep.busyQueue db w n e hbusy
    simp only [Sweep.worker] at hrun
    rw [hrun]
    rfl
  · have hrun := Sweep.worker_of_success Sweep.waitQueue db (busyQueueWorker db w).2 m hwait
    simp only [Sweep.worker] at hrun
    rw [hrun]
  · intro k τ₁ τ₂ db₁ w₁ db₂ w₂ hsame
    rcases hr : (db₂.respond k.ownCall w₂.store).1 with ⟨c, _ | err⟩
    · rw [Sweep.worker_of_success k db₁ w₁ c (hsame.trans hr),
        Sweep.worker_of_success k db₂ w₂ c hr]
    · rw [Sweep.worker_of_error k db₁ w₁ c err (hsame.trans hr),
        Sweep.worker_of_error k db₂ w₂ c err hr]

/-- An instance: a store where only `MoveBusyToTimeout` fails, with "connection reset". -/
theorem sweep_failures_are_isolated_witness :
    ((busyFailingStore (GoError.errorString "connection reset") 2).respond
        StoreCall.MoveBusyToTimeout freshWorld.store).1
      = (0, some (GoError.errorString "connection reset")) ∧
    ((busyFailingStore (GoError.errorString "connection reset") 2).respond
        StoreCall.MoveWaitToReady
        (busyQueueWorker (busyFailingStore (GoError.errorString "connection reset") 2)
          freshWorld).2.store).1 = (2, none) ∧
    (busyQueueWorker (busyFailingStore (GoError.errorString "connection reset") 2)
        freshWorld).1
      = some (GoError.wrapError
          ("error moving crawl host groups from busy queue to timeout queue: "
            ++ (GoError.errorString "connection reset").Error)
          (GoError.errorString "connection reset")) ∧
    (waitQueueWorker (busyFailingStore (GoError.errorString "connection reset") 2)
        (busyQueueWorker (busyFailingStore (GoError.errorString "connection reset") 2)
          freshWorld).2).1 = none :=
  ⟨rfl, rfl,
    (sweep_failures_are_isolated (busyFailingStore (GoError.errorString "connection reset") 2)
      freshWorld 0 2 (GoError.errorString "connection reset") rfl rfl).1,
    (sweep_failures_are_isolated (busyFailingStore (GoError.errorString "connection reset") 2)
      freshWorld 0 2 (GoError.errorString "connection reset") rfl rfl).2.1⟩

/-! ## The bounded trimming batch -/

/-- C9: against the store whose `RemoveFromUriQueue` is one trimming batch, every invocation
of `removeUriQueueWorker` obtains a count `k` that is the number of entries the URI queue lost,
is at most 10000, and is the count in the line logged when `k` is positive. -/
theorem removeUriQueueWorker_batch_is_bounded (w : World (List UriQueueEntry)) :
    ∃ k : Nat, k ≤ 10000 ∧
      (uriQueueStore.respond (StoreCall.RemoveFromUriQueue Context.background) w.store).1
        = ((k : Int), none) ∧
      k + (removeUriQueueWorker uriQueueStore w).2.store.length = w.store.length ∧
      (removeUriQueueWorker uriQueueStore w).1 = none ∧
      (removeUriQueueWorker uriQueueStore w).2.log
        = (if 0 < k then
            w.log ++ [⟨Level.debug, "Removed " ++ toString (k : Int) ++ " queued uris"⟩]
          else w.log) := by
  have hr : (uriQueueStore.respond Sweep.removeUriQueue.ownCall w.store).1
      = (((trimBatch w.store batchCap).1 : Int), none) := rfl
  have hrun := Sweep.worker_of_success Sweep.removeUriQueue uriQueueStore w _ hr
  simp only [Sweep.worker] at hrun
  refine ⟨(trimBatch w.store batchCap).1, trimBatch_count_le w.store batchCap, rfl, ?_, ?_, ?_⟩
  · rw [hrun]
    have hlen := trimBatch_length w.store batchCap
    by_cases hk : ((trimBatch w.store batchCap).1 : Int) > 0
    · simp only [hk, if_true]
      exact hlen
    · simp only [hk, if_false]
      exact hlen
  · rw [hrun]
  · rw [hrun]
    by_cases hk : 0 < (trimBatch w.store batchCap).1
    · have hk' : ((trimBatch w.store batchCap).1 : Int) > 0 := by exact_mod_cast hk
      simp only [hk, hk', if_true]
      rfl
    · have hk' : ¬ ((trimBatch w.store batchCap).1 : Int) > 0 := by
        intro hpos
        exact hk (by exact_mod_cast hpos)
      simp only [hk, hk', if_false]
      rfl

end FrontierWorkers
